import Mathlib

/-!
Verification development for `interface_android_stub.go` (package `anet`).

The source enumerates network interfaces and their unicast addresses on
Android 11+ by decoding a netlink RTM_GETADDR dump and resolving each
interface index through per-interface ioctl sub-queries.

Shallow embedding conventions:
- Machine integers become `Nat` / `Int`; byte buffers become `List Nat`.
- All interactions with the outside world (the netlink dump, the three
  ioctl-based sub-queries, the stdlib `net.*` fallback path, the detected
  device API level) are fields of an explicit environment `Env`.
- The process-global `customAndroidApiLevel` variable becomes the explicit
  state `St`.
- Go runtime panics (nil-pointer dereference, index/slice out of range) and
  out-of-bounds reads through `unsafe.Pointer` casts are modelled by the
  `Res.crash` outcome, distinguished from ordinary returned errors
  (`Res.err`).
-/

/- Linux/Android kernel and Go `net` package constants used by the source. -/

def NLMSG_DONE : Nat := 3
def RTM_NEWADDR : Nat := 20
def AF_INET : Nat := 2
def AF_INET6 : Nat := 10
def IFA_ADDRESS : Nat := 1
def IFA_LOCAL : Nat := 2
def IFNAMSIZ : Nat := 16

/-- `android11ApiLevel = 30` (the restriction threshold). -/
def android11ApiLevel : Int := 30

/- Go `net.Flags` bit values. -/

def FlagUp : Nat := 1
def FlagBroadcast : Nat := 2
def FlagLoopback : Nat := 4
def FlagPointToPoint : Nat := 8
def FlagMulticast : Nat := 16
def FlagRunning : Nat := 32

/- Raw interface-flag (IFF_*) bit values. -/

def IFF_UP : Nat := 1
def IFF_BROADCAST : Nat := 2
def IFF_LOOPBACK : Nat := 8
def IFF_POINTOPOINT : Nat := 16
def IFF_RUNNING : Nat := 64
def IFF_MULTICAST : Nat := 4096

/-- Header of a decoded netlink message; only the `Type` field is read by the
source, so only it is modelled. -/
structure NlMsghdr where
  type : Nat
  deriving DecidableEq, Repr

/-- A decoded netlink message (`syscall.NetlinkMessage`): header plus raw
payload bytes. -/
structure NetlinkMessage where
  header : NlMsghdr
  data : List Nat
  deriving DecidableEq, Repr

/-- `syscall.IfAddrmsg`: the fixed 8-byte address-message header
{Family u8, Prefixlen u8, Flags u8, Scope u8, Index u32}. -/
structure IfAddrmsg where
  family : Nat
  prefixlen : Nat
  flags : Nat
  scope : Nat
  index : Nat
  deriving DecidableEq, Repr

/-- `syscall.RtAttr`: a routing-attribute header {Len u16, Type u16}. -/
structure RtAttr where
  len : Nat
  type : Nat
  deriving DecidableEq, Repr

/-- `syscall.NetlinkRouteAttr`: attribute header plus value bytes. -/
structure NetlinkRouteAttr where
  attr : RtAttr
  value : List Nat
  deriving DecidableEq, Repr

/-- The fields of `net.Interface` populated by `newLink` (index, name, MTU,
flags). -/
structure Interface where
  index : Nat
  name : String
  mtu : Int
  flags : Nat
  deriving DecidableEq, Repr

/-- The result of a `net.CIDRMask(ones, bits)` call, represented by its two
arguments (the prefix length and the total mask width in bits). -/
structure Mask where
  ones : Nat
  bits : Nat
  deriving DecidableEq, Repr

/-- `net.IPNet`: an IP (as Go byte slice) together with its CIDR mask. -/
structure IPNet where
  ip : List Nat
  mask : Mask
  deriving DecidableEq, Repr

/-- Error values produced by the source (Go `error`s). -/
inductive Err where
  /-- `os.NewSyscallError(fn, err)` wrapping a transport or decode failure. -/
  | syscallError (fn : String)
  | invalidInterfaceIndex
  | invalidInterfaceName
  | invalidInterface
  | noSuchInterface
  /-- `syscall.EINVAL`. -/
  | einval
  /-- an error returned by the conventional `net.*` fallback path. -/
  | external
  /-- `&net.OpError{Op: "route", Net: "ip+net", Err: inner}`. -/
  | opError (inner : Err)
  deriving DecidableEq, Repr

/-- Ways the Go code can crash at runtime instead of returning. -/
inductive CrashKind where
  /-- dereference of a nil `*net.Interface`. -/
  | nilDeref
  /-- index/slice out of range, or an `unsafe.Pointer` read past the end of a
  buffer. -/
  | outOfRange
  deriving DecidableEq, Repr

/-- Outcome of running a piece of the source: a value, a returned error, or a
runtime crash / out-of-bounds access. -/
inductive Res (α : Type) where
  | ok (a : α)
  | err (e : Err)
  | crash (k : CrashKind)
  deriving DecidableEq, Repr

def Res.map {α β : Type} (f : α → β) : Res α → Res β
  | .ok a => .ok (f a)
  | .err e => .err e
  | .crash k => .crash k

def Res.isCrash {α : Type} : Res α → Bool
  | .crash _ => true
  | _ => false

/-- The value of an `ok` outcome, or a default. -/
def Res.okD {α : Type} (r : Res α) (d : α) : α :=
  match r with
  | .ok a => a
  | _ => d

/-- Combined outcome of `NetlinkRIB(RTM_GETADDR, AF_UNSPEC)` followed by
`syscall.ParseNetlinkMessage`: either stage fails, or a decoded message
stream is produced. -/
inductive SourceResult where
  | ribError
  | parseError
  | msgs (l : List NetlinkMessage)

/-- The environment of one call: kernel message source, ioctl sub-queries
(already stripped to their observable behaviour; `gifname` returns the
NUL-trimmed name out of the fixed ioctl buffer), the autodetected device API
level, and the conventional `net.*` fallback entry points. -/
structure Env where
  source : SourceResult
  gifname : Nat → Except Unit String
  gifmtu : String → Except Unit Int
  gifflags : String → Except Unit Nat
  deviceApiLevel : Int
  netInterfaces : Except Unit (List Interface)
  netInterfaceAddrs : Except Unit (List IPNet)
  netInterfaceByIndex : Int → Except Unit Interface
  netInterfaceByName : String → Except Unit Interface
  netIfiAddrs : Interface → Except Unit (List IPNet)

/-- The process-wide mutable state: the `customAndroidApiLevel` variable. -/
structure St where
  customAndroidApiLevel : Int
  deriving DecidableEq, Repr

/-- Initial value of `customAndroidApiLevel` (`-1`, meaning auto-detect). -/
def initialCustomAndroidApiLevel : Int := -1

/-- Funnels an error from the conventional `net.*` path into `Res` (such
errors are returned to the caller unwrapped). -/
def liftExternal {α : Type} : Except Unit α → Res α
  | .ok a => .ok a
  | .error _ => .err .external

/-- The `(*syscall.IfAddrmsg)(unsafe.Pointer(&m.Data[0]))` cast: reinterprets
the first 8 payload bytes as the fixed-layout address header (index is a
little-endian u32). The cast is an in-bounds read only when the payload has
at least 8 bytes; `none` marks the out-of-bounds access (for an empty payload
Go panics on `&m.Data[0]`, for 1-7 bytes the cast reads past the buffer). -/
def decodeIfAddrmsg : List Nat → Option IfAddrmsg
  | f :: p :: fl :: s :: i0 :: i1 :: i2 :: i3 :: _ =>
      some ⟨f, p, fl, s, i0 + 256 * i1 + 65536 * i2 + 16777216 * i3⟩
  | _ => none

/-- `rtaAlignOf`: rounds an attribute length up to the 4-byte boundary. -/
def rtaAlignOf (attrlen : Nat) : Nat := (attrlen + 3) / 4 * 4

/-- The attribute loop of `syscall.ParseNetlinkRouteAttr`: while at least
`SizeofRtAttr = 4` bytes remain, read {Len u16, Type u16} (little-endian),
reject lengths below 4 or beyond the buffer with EINVAL, take the value
bytes, and advance by the aligned length (`b = b[rtaAlignOf(alen):]` panics
when the aligned length exceeds the remaining bytes).

The structural fuel starts at the buffer length; every iteration consumes at
least 4 bytes, so the fuel never runs out (the 0-fuel case is unreachable
from `parseAttrsLoop`). -/
def netlinkRouteAttrs : Nat → List Nat → Res (List NetlinkRouteAttr)
  | 0, _ => .ok []
  | fuel + 1, b =>
    if b.length < 4 then .ok []
    else
      let alen := b.getD 0 0 + 256 * b.getD 1 0
      let atyp := b.getD 2 0 + 256 * b.getD 3 0
      if alen < 4 ∨ b.length < alen then .err .einval
      else if b.length < rtaAlignOf alen then .crash .outOfRange
      else
        Res.map (fun l => ⟨⟨alen, atyp⟩, (b.drop 4).take (alen - 4)⟩ :: l)
          (netlinkRouteAttrs fuel (b.drop (rtaAlignOf alen)))

def parseAttrsLoop (b : List Nat) : Res (List NetlinkRouteAttr) :=
  netlinkRouteAttrs b.length b

/-- `syscall.ParseNetlinkRouteAttr` for an RTM_NEWADDR message (the only kind
the source feeds it): skip the 8-byte `IfAddrmsg` header (`m.Data[8:]`
panics when the payload is shorter) and parse the attribute list. -/
def parseNetlinkRouteAttr (m : NetlinkMessage) : Res (List NetlinkRouteAttr) :=
  if m.data.length < 8 then .crash .outOfRange
  else parseAttrsLoop (m.data.drop 8)

/-- `linkFlags`: fixed translation from raw IFF_* bits to `net.Flags`. -/
def linkFlags (rawFlags : Nat) : Nat :=
  let f := 0
  let f := if rawFlags.land IFF_UP ≠ 0 then f.lor FlagUp else f
  let f := if rawFlags.land IFF_RUNNING ≠ 0 then f.lor FlagRunning else f
  let f := if rawFlags.land IFF_BROADCAST ≠ 0 then f.lor FlagBroadcast else f
  let f := if rawFlags.land IFF_LOOPBACK ≠ 0 then f.lor FlagLoopback else f
  let f := if rawFlags.land IFF_POINTOPOINT ≠ 0 then f.lor FlagPointToPoint else f
  let f := if rawFlags.land IFF_MULTICAST ≠ 0 then f.lor FlagMulticast else f
  f

/-- `indexToName`: SIOCGIFNAME ioctl; socket/ioctl behaviour is the
environment, the NUL-trimming of the fixed buffer is absorbed into
`Env.gifname`. -/
def indexToName (env : Env) (index : Nat) : Except Unit String :=
  env.gifname index

/-- `nameToMTU`: rejects names that do not leave room for the terminating
NUL byte before issuing SIOCGIFMTU. -/
def nameToMTU (env : Env) (name : String) : Except Unit Int :=
  if IFNAMSIZ ≤ name.length then .error ()
  else env.gifmtu name

/-- `nameToFlags`: same length guard, then SIOCGIFFLAGS translated through
`linkFlags`. -/
def nameToFlags (env : Env) (name : String) : Except Unit Nat :=
  if IFNAMSIZ ≤ name.length then .error ()
  else
    match env.gifflags name with
    | .error e => .error e
    | .ok raw => .ok (linkFlags raw)

/-- `newLink`: resolve name, MTU and flags for the interface index of an
address message; any sub-query failure drops the record (returns nil). -/
def newLink (env : Env) (ifam : IfAddrmsg) : Option Interface :=
  match indexToName env ifam.index with
  | .error _ => none
  | .ok name =>
    match nameToMTU env name with
    | .error _ => none
    | .ok mtu =>
      match nameToFlags env name with
      | .error _ => none
      | .ok flags => some { index := ifam.index, name := name, mtu := mtu, flags := flags }

/-- `newLink` reads only the index field of its argument; `linkOfIndex` is
that restriction, used to state snapshot properties. -/
def linkOfIndex (env : Env) (i : Nat) : Option Interface :=
  newLink env { family := 0, prefixlen := 0, flags := 0, scope := 0, index := i }

/-- The message loop of `interfaceTable`: `im` is the set of already-seen
interface indices (the Go `map[uint32]struct{}`). Results are returned
suffix-first; a caller that appended a record prepends it, which matches the
accumulating `ift` slice of the source. `NLMSG_DONE` breaks the loop;
a record whose index equals a nonzero `ifindex` is resolved and then breaks
the loop. -/
def interfaceTableLoop (env : Env) (ifindex : Int) (im : List Nat) :
    List NetlinkMessage → Res (List Interface)
  | [] => .ok []
  | m :: rest =>
    if m.header.type = NLMSG_DONE then .ok []
    else if m.header.type = RTM_NEWADDR then
      match decodeIfAddrmsg m.data with
      | none => .crash .outOfRange
      | some ifam =>
        if ifam.index ∈ im then interfaceTableLoop env ifindex im rest
        else
          if ifindex = 0 ∨ ifindex = (ifam.index : Int) then
            let hd : List Interface :=
              match newLink env ifam with
              | some ifi => [ifi]
              | none => []
            if ifindex = (ifam.index : Int) then .ok hd
            else Res.map (fun l => hd ++ l)
              (interfaceTableLoop env ifindex (ifam.index :: im) rest)
          else interfaceTableLoop env ifindex (ifam.index :: im) rest
    else interfaceTableLoop env ifindex im rest

/-- `interfaceTable` applied to an already-decoded message stream. -/
def interfaceTableMsgs (env : Env) (ifindex : Int) (msgs : List NetlinkMessage) :
    Res (List Interface) :=
  interfaceTableLoop env ifindex [] msgs

/-- `interfaceTable`: issue the RTM_GETADDR dump, decode it, and run the
message loop; index 0 means all interfaces. -/
def interfaceTable (env : Env) (ifindex : Int) : Res (List Interface) :=
  match env.source with
  | .ribError => .err (.syscallError "netlinkrib")
  | .parseError => .err (.syscallError "parsenetlinkmessage")
  | .msgs msgs => interfaceTableMsgs env ifindex msgs

/-- `goCopy n src`: Go `copy` into a fresh zeroed slice of length `n`. -/
def goCopy (n : Nat) (src : List Nat) : List Nat :=
  src.take n ++ List.replicate (n - src.length) 0

/-- Go `net.IPv4(a,b,c,d)`: the 16-byte IPv4-in-IPv6 representation of a
4-byte IPv4 address. -/
def IPv4 (a b c d : Nat) : List Nat :=
  [0, 0, 0, 0, 0, 0, 0, 0, 0, 0, 255, 255, a, b, c, d]

/-- Go `net.CIDRMask(ones, bits)`, represented by its arguments. -/
def CIDRMask (ones bits : Nat) : Mask := ⟨ones, bits⟩

/-- The AF_INET arm of `newAddr`:
`net.IPNet{IP: net.IPv4(a.Value[0..3]), Mask: net.CIDRMask(Prefixlen, 32)}`;
reading `a.Value[0..3]` crashes when the value has fewer than 4 bytes. -/
def newAddrV4 (ifam : IfAddrmsg) (a : NetlinkRouteAttr) : Res (Option IPNet) :=
  match a.value with
  | b0 :: b1 :: b2 :: b3 :: _ =>
      .ok (some ⟨IPv4 b0 b1 b2 b3, CIDRMask ifam.prefixlen 32⟩)
  | _ => .crash .outOfRange

/-- The AF_INET6 arm of `newAddr`: a fresh 16-byte slice is filled by
`copy(ifa.IP, a.Value[:])`, with `net.CIDRMask(Prefixlen, 128)`. -/
def newAddrV6 (ifam : IfAddrmsg) (a : NetlinkRouteAttr) : Res (Option IPNet) :=
  .ok (some ⟨goCopy 16 a.value, CIDRMask ifam.prefixlen 128⟩)

/-- The attribute loop of `newAddr`: with point-to-point detected, IFA_ADDRESS
attributes are skipped; otherwise the record's family decides the result
built from the current attribute. Any family other than AF_INET and AF_INET6
falls through to the next attribute. -/
def newAddrLoop (ifam : IfAddrmsg) (ipPointToPoint : Bool) :
    List NetlinkRouteAttr → Res (Option IPNet)
  | [] => .ok none
  | a :: rest =>
    if ipPointToPoint ∧ a.attr.type = IFA_ADDRESS then newAddrLoop ifam ipPointToPoint rest
    else if ifam.family = AF_INET then newAddrV4 ifam a
    else if ifam.family = AF_INET6 then newAddrV6 ifam a
    else newAddrLoop ifam ipPointToPoint rest

/-- `newAddr`: point-to-point is detected by the presence of an IFA_LOCAL
attribute, then the attribute loop builds at most one address. -/
def newAddr (ifam : IfAddrmsg) (attrs : List NetlinkRouteAttr) : Res (Option IPNet) :=
  newAddrLoop ifam (attrs.any (fun a => a.attr.type == IFA_LOCAL)) attrs

/-- The short-circuit condition `len(ift) != 0 || ifi.Index == int(ifam.Index)`
of `addrTable`; evaluating `ifi.Index` on a nil interface crashes. -/
def addrTableCond (ift : List Interface) (ifi : Option Interface) (ifam : IfAddrmsg) :
    Res Bool :=
  if ift.length ≠ 0 then .ok true
  else
    match ifi with
    | none => .crash .nilDeref
    | some ifc => .ok (decide (ifc.index = ifam.index))

/-- `addrTable`: walk the decoded messages; NLMSG_DONE breaks the loop; for a
selected RTM_NEWADDR record parse its attributes (failure becomes a
"parsenetlinkrouteattr" syscall error) and append the address `newAddr`
builds, if any. Results are returned suffix-first as in
`interfaceTableLoop`. -/
def addrTable (ift : List Interface) (ifi : Option Interface) :
    List NetlinkMessage → Res (List IPNet)
  | [] => .ok []
  | m :: rest =>
    if m.header.type = NLMSG_DONE then .ok []
    else if m.header.type = RTM_NEWADDR then
      match decodeIfAddrmsg m.data with
      | none => .crash .outOfRange
      | some ifam =>
        match addrTableCond ift ifi ifam with
        | .crash k => .crash k
        | .err e => .err e
        | .ok false => addrTable ift ifi rest
        | .ok true =>
          match parseNetlinkRouteAttr m with
          | .err _ => .err (.syscallError "parsenetlinkrouteattr")
          | .crash k => .crash k
          | .ok attrs =>
            match newAddr ifam attrs with
            | .err e => .err e
            | .crash k => .crash k
            | .ok none => addrTable ift ifi rest
            | .ok (some ifa) => Res.map (fun l => ifa :: l) (addrTable ift ifi rest)
    else addrTable ift ifi rest

/-- `interfaceAddrTable`: issue and decode the dump; when no specific
interface is given, resolve the full interface table first (the source
issues a second dump for it; the environment models the kernel state of the
call, so both dumps see `env.source`); then extract addresses. -/
def interfaceAddrTable (env : Env) (ifi : Option Interface) : Res (List IPNet) :=
  match env.source with
  | .ribError => .err (.syscallError "netlinkrib")
  | .parseError => .err (.syscallError "parsenetlinkmessage")
  | .msgs msgs =>
    match ifi with
    | none =>
      match interfaceTable env 0 with
      | .err e => .err e
      | .crash k => .crash k
      | .ok ift => addrTable ift none msgs
    | some _ => addrTable [] ifi msgs

/-- `interfaceByIndex`: linear search of a resolved table. -/
def interfaceByIndex (ift : List Interface) (index : Int) : Except Err Interface :=
  match ift.find? (fun ifc => index = (ifc.index : Int)) with
  | some ifc => .ok ifc
  | none => .error .noSuchInterface

/-- `androidApiLevel`: a user-provided override wins; `-1` means autodetect. -/
def androidApiLevel (st : St) (env : Env) : Int :=
  if st.customAndroidApiLevel ≠ -1 then st.customAndroidApiLevel
  else env.deviceApiLevel

/-- `SetAndroidVersion`: returns the new value of `customAndroidApiLevel`
(0 restores autodetect; versions from 11 up map to API level 30; versions
1-10 map to API level 0). -/
def SetAndroidVersion (version : Nat) : Int :=
  if version = 0 then -1
  else if 11 ≤ version then android11ApiLevel
  else 0

/-- The netlink branch of `Interfaces` (the `zoneCache` updates are no-ops on
this platform). -/
def interfacesNetlink (env : Env) : Res (List Interface) :=
  match interfaceTable env 0 with
  | .err e => .err (.opError e)
  | .crash k => .crash k
  | .ok ift => .ok ift

/-- `Interfaces`: conventional path below the API-level threshold, netlink
path at or above it. -/
def Interfaces (st : St) (env : Env) : Res (List Interface) :=
  if androidApiLevel st env < android11ApiLevel then liftExternal env.netInterfaces
  else interfacesNetlink env

/-- The netlink branch of `InterfaceAddrs`. -/
def interfaceAddrsNetlink (env : Env) : Res (List IPNet) :=
  match interfaceAddrTable env none with
  | .err e => .err (.opError e)
  | .crash k => .crash k
  | .ok ifat => .ok ifat

/-- `InterfaceAddrs`. -/
def InterfaceAddrs (st : St) (env : Env) : Res (List IPNet) :=
  if androidApiLevel st env < android11ApiLevel then liftExternal env.netInterfaceAddrs
  else interfaceAddrsNetlink env

/-- The netlink branch of `InterfaceByIndex`: non-positive indices are
invalid; the single-interface table is searched and a miss is
`errNoSuchInterface`. -/
def interfaceByIndexNetlink (env : Env) (index : Int) : Res Interface :=
  if index ≤ 0 then .err (.opError .invalidInterfaceIndex)
  else
    match interfaceTable env index with
    | .err e => .err (.opError e)
    | .crash k => .crash k
    | .ok ift =>
      match interfaceByIndex ift index with
      | .ok ifc => .ok ifc
      | .error e => .err (.opError e)

/-- `InterfaceByIndex`. -/
def InterfaceByIndex (st : St) (env : Env) (index : Int) : Res Interface :=
  if androidApiLevel st env < android11ApiLevel then
    liftExternal (env.netInterfaceByIndex index)
  else interfaceByIndexNetlink env index

/-- `InterfaceByName`: an empty name is rejected up front; the full netlink
table is then resolved and searched by name. Note the source performs no
API-level check here — the state is received (the Go function can read the
global) but never consulted. -/
def InterfaceByName (_st : St) (env : Env) (name : String) : Res Interface :=
  if name = "" then .err (.opError .invalidInterfaceName)
  else
    match interfaceTable env 0 with
    | .err e => .err (.opError e)
    | .crash k => .crash k
    | .ok ift =>
      match ift.find? (fun ifc => name = ifc.name) with
      | some ifc => .ok ifc
      | none => .err (.opError .noSuchInterface)

/-- The netlink branch of `InterfaceAddrsByInterface`. -/
def interfaceAddrsByInterfaceNetlink (env : Env) (ifc : Interface) : Res (List IPNet) :=
  match interfaceAddrTable env (some ifc) with
  | .err e => .err (.opError e)
  | .crash k => .crash k
  | .ok ifat => .ok ifat

/-- `InterfaceAddrsByInterface`: a nil interface is rejected before the
API-level check. -/
def InterfaceAddrsByInterface (st : St) (env : Env) (ifi : Option Interface) :
    Res (List IPNet) :=
  match ifi with
  | none => .err (.opError .invalidInterface)
  | some ifc =>
    if androidApiLevel st env < android11ApiLevel then liftExternal (env.netIfiAddrs ifc)
    else interfaceAddrsByInterfaceNetlink env ifc

/- Specification-side helpers used to state properties about the stream. -/

/-- The interface indices of the decodable RTM_NEWADDR records of a stream,
in stream order, with multiplicity. -/
def newaddrIndices (msgs : List NetlinkMessage) : List Nat :=
  msgs.filterMap (fun m =>
    if m.header.type = RTM_NEWADDR then (decodeIfAddrmsg m.data).map (·.index)
    else none)

/-- First-seen deduplication relative to an already-seen set. -/
def dedupFirstAux (seen : List Nat) : List Nat → List Nat
  | [] => []
  | x :: xs =>
    if x ∈ seen then dedupFirstAux seen xs
    else x :: dedupFirstAux (x :: seen) xs

/-- First-seen deduplication: keeps the first occurrence of every value, in
order of first appearance. -/
def dedupFirst (l : List Nat) : List Nat := dedupFirstAux [] l

/- Concrete fixtures used by witnesses and counterexamples. -/

/-- A sample resolved interface. -/
def ifcSample : Interface := ⟨1, "lo", 65536, 1⟩

/-- A second sample resolved interface. -/
def ifcEth : Interface := ⟨2, "eth0", 1500, 1⟩

/-- A well-formed RTM_NEWADDR message with the given family, prefix length,
(one-byte) interface index, and attribute bytes. -/
def mkNA (fam plen idx : Nat) (ab : List Nat) : NetlinkMessage :=
  { header := ⟨RTM_NEWADDR⟩, data := [fam, plen, 0, 0, idx, 0, 0, 0] ++ ab }

/-- An end-of-dump marker message. -/
def msgDone : NetlinkMessage := ⟨⟨NLMSG_DONE⟩, []⟩

/-- A stream with two distinct indices (1 and 2), a duplicate of index 1, and
a trailing done marker. -/
def msgsC1 : List NetlinkMessage :=
  [mkNA 2 24 1 [], mkNA 10 64 2 [], mkNA 2 16 1 [], msgDone]

/-- Environment whose sub-queries all succeed, serving `msgsC1`. -/
def envC1 : Env :=
  { source := .msgs msgsC1
    gifname := fun i => .ok (Nat.repr i)
    gifmtu := fun _ => .ok 1500
    gifflags := fun _ => .ok 1
    deviceApiLevel := 30
    netInterfaces := .error ()
    netInterfaceAddrs := .error ()
    netInterfaceByIndex := fun _ => .error ()
    netInterfaceByName := fun _ => .error ()
    netIfiAddrs := fun _ => .error () }

/-- Environment below the threshold whose netlink source fails while the
conventional by-name lookup succeeds. -/
def envC5 : Env :=
  { source := .ribError
    gifname := fun _ => .error ()
    gifmtu := fun _ => .error ()
    gifflags := fun _ => .error ()
    deviceApiLevel := 3
    netInterfaces := .ok [ifcSample]
    netInterfaceAddrs := .ok []
    netInterfaceByIndex := fun _ => .ok ifcSample
    netInterfaceByName := fun _ => .ok ifcSample
    netIfiAddrs := fun _ => .ok [] }

/-- Like `envC5` but with the conventional by-name lookup returning `ifcEth`. -/
def envC8 : Env :=
  { source := .ribError
    gifname := fun _ => .error ()
    gifmtu := fun _ => .error ()
    gifflags := fun _ => .error ()
    deviceApiLevel := 9
    netInterfaces := .ok [ifcEth]
    netInterfaceAddrs := .ok []
    netInterfaceByIndex := fun _ => .ok ifcEth
    netInterfaceByName := fun _ => .ok ifcEth
    netIfiAddrs := fun _ => .ok [] }

/-- Environment whose dump holds one address record for index 1 but whose
name sub-query always fails, so the resolved interface table is empty. -/
def envC9 : Env :=
  { source := .msgs [mkNA 2 24 1 []]
    gifname := fun _ => .error ()
    gifmtu := fun _ => .ok 1500
    gifflags := fun _ => .ok 1
    deviceApiLevel := 30
    netInterfaces := .error ()
    netInterfaceAddrs := .error ()
    netInterfaceByIndex := fun _ => .error ()
    netInterfaceByName := fun _ => .error ()
    netIfiAddrs := fun _ => .error () }

/-- State with auto-detection in effect. -/
def stAuto : St := ⟨-1⟩

/-- State pinned at API level 30 (restricted mode). -/
def st30 : St := ⟨30⟩

/-- An AF_INET address record with an attribute that is neither IFA_ADDRESS
nor IFA_LOCAL (type 6, IFA_CACHEINFO) listed before the IFA_LOCAL and
IFA_ADDRESS attributes. -/
def ifamC3 : IfAddrmsg := ⟨2, 24, 0, 0, 1⟩

def attrsC3 : List NetlinkRouteAttr :=
  [⟨⟨8, 6⟩, [1, 2, 3, 4]⟩, ⟨⟨8, IFA_LOCAL⟩, [10, 0, 0, 6]⟩, ⟨⟨8, IFA_ADDRESS⟩, [10, 0, 0, 5]⟩]

/-- An attribute list carrying only a local-address and a peer-address
attribute (the typical point-to-point pair). -/
def attrsLocalPeer : List NetlinkRouteAttr :=
  [⟨⟨8, IFA_LOCAL⟩, [10, 0, 0, 6]⟩, ⟨⟨8, IFA_ADDRESS⟩, [10, 0, 0, 5]⟩]

/-- An RTM_NEWADDR message whose payload is shorter than the 8-byte address
header. -/
def msgShort : NetlinkMessage := ⟨⟨RTM_NEWADDR⟩, [2, 24, 0, 0]⟩

/-- A family-A RTM_NEWADDR message whose single IFA_LOCAL attribute has an
empty value. -/
def msgShortAttr : NetlinkMessage := ⟨⟨RTM_NEWADDR⟩, [2, 24, 0, 0, 1, 0, 0, 0, 4, 0, 2, 0]⟩

/-- A well-formed family-A RTM_NEWADDR message for index 1 carrying one
IFA_LOCAL attribute with a 4-byte value. -/
def msgsC10 : List NetlinkMessage :=
  [mkNA 2 24 1 [8, 0, 2, 0, 10, 0, 0, 6]]

/- Shared lemmas. -/

/-- `newLink` reads only the index field of the address message. -/
theorem newLink_eq_linkOfIndex (env : Env) (ifam : IfAddrmsg) :
    newLink env ifam = linkOfIndex env ifam.index := rfl

/-- A successfully resolved link carries the index it was resolved for. -/
theorem linkOfIndex_index (env : Env) (i : Nat) (ifc : Interface)
    (h : linkOfIndex env i = some ifc) : ifc.index = i := by
  unfold linkOfIndex newLink at h
  split at h
  · exact absurd h (by simp)
  · split at h
    · exact absurd h (by simp)
    · split at h
      · exact absurd h (by simp)
      · simp only [Option.some.injEq] at h
        rw [← h]

/-- Elements of a first-seen deduplication avoid the seen set and are
pairwise distinct. -/
theorem dedupFirstAux_nodup (l : List Nat) :
    ∀ seen : List Nat,
      (∀ x ∈ dedupFirstAux seen l, x ∉ seen) ∧ (dedupFirstAux seen l).Nodup := by
  induction l with
  | nil => intro seen; simp [dedupFirstAux]
  | cons x xs ih =>
    intro seen
    by_cases hx : x ∈ seen
    · simpa [dedupFirstAux, hx] using ih seen
    · constructor
      · intro y hy
        simp only [dedupFirstAux, hx, if_false] at hy
        rcases List.mem_cons.mp hy with rfl | hy
        · exact hx
        · have := (ih (x :: seen)).1 y hy
          intro hc; exact this (List.mem_cons_of_mem _ hc)
      · simp only [dedupFirstAux, hx, if_false]
        refine List.nodup_cons.mpr ⟨?_, (ih (x :: seen)).2⟩
        intro hc
        exact (ih (x :: seen)).1 x hc (List.mem_cons_self _ _)

/-- First-seen deduplication only returns values of the input list. -/
theorem dedupFirstAux_subset (l : List Nat) :
    ∀ seen x, x ∈ dedupFirstAux seen l → x ∈ l := by
  induction l with
  | nil => intro seen x h; simp [dedupFirstAux] at h
  | cons a as ih =>
    intro seen x h
    by_cases ha : a ∈ seen
    · simp only [dedupFirstAux, ha, if_true] at h
      exact List.mem_cons_of_mem _ (ih seen x h)
    · simp only [dedupFirstAux, ha, if_false] at h
      rcases List.mem_cons.mp h with rfl | h
      · exact List.mem_cons_self _ _
      · exact List.mem_cons_of_mem _ (ih (a :: seen) x h)

/-- Characterization of the all-interfaces message loop: on a stream without
done markers whose address records decode to nonzero indices, the loop
returns, in first-seen order, the records `newLink` can fully resolve. -/
theorem interfaceTableLoop_char (env : Env) :
    ∀ (msgs : List NetlinkMessage) (im : List Nat),
      (∀ m ∈ msgs, m.header.type ≠ NLMSG_DONE) →
      (∀ m ∈ msgs, m.header.type = RTM_NEWADDR →
        ∃ ifam, decodeIfAddrmsg m.data = some ifam ∧ ifam.index ≠ 0) →
      interfaceTableLoop env 0 im msgs =
        Res.ok ((dedupFirstAux im (newaddrIndices msgs)).filterMap (linkOfIndex env)) := by
  intro msgs
  induction msgs with
  | nil => intro im _ _; simp [interfaceTableLoop, newaddrIndices, dedupFirstAux]
  | cons m rest ih =>
    intro im hdone hdec
    have hdm : m.header.type ≠ NLMSG_DONE := hdone m (List.mem_cons_self _ _)
    have hdone' : ∀ m' ∈ rest, m'.header.type ≠ NLMSG_DONE :=
      fun m' hm' => hdone m' (List.mem_cons_of_mem _ hm')
    have hdec' : ∀ m' ∈ rest, m'.header.type = RTM_NEWADDR →
        ∃ ifam, decodeIfAddrmsg m'.data = some ifam ∧ ifam.index ≠ 0 :=
      fun m' hm' => hdec m' (List.mem_cons_of_mem _ hm')
    by_cases hna : m.header.type = RTM_NEWADDR
    · obtain ⟨ifam, hdc, hnz⟩ := hdec m (List.mem_cons_self _ _) hna
      have hni : newaddrIndices (m :: rest) = ifam.index :: newaddrIndices rest := by
        simp [newaddrIndices, List.filterMap_cons, hna, hdc]
      have hz : ¬ ((0 : Int) = (ifam.index : Int)) := by omega
      by_cases him : ifam.index ∈ im
      · rw [hni]
        simp only [interfaceTableLoop, if_neg hdm, if_pos hna, hdc]
        rw [ih im hdone' hdec']
        simp [dedupFirstAux, him]
      · rw [hni]
        simp only [interfaceTableLoop, if_neg hdm, if_pos hna, hdc]
        simp only [him, if_false, eq_self_iff_true, true_or, if_true, if_neg hz]
        rw [ih (ifam.index :: im) hdone' hdec']
        simp only [dedupFirstAux, him, if_false]
        have hLx : linkOfIndex env ifam.index = newLink env ifam := rfl
        cases hL : newLink env ifam with
        | none => simp [Res.map, List.filterMap_cons, hLx, hL]
        | some ifc => simp [Res.map, List.filterMap_cons, hLx, hL]
    · have hni : newaddrIndices (m :: rest) = newaddrIndices rest := by
        simp [newaddrIndices, List.filterMap_cons, hna]
      rw [hni]
      simp only [interfaceTableLoop, if_neg hdm, if_neg hna]
      exact ih im hdone' hdec'

/-- A done marker stops the interface loop: everything after it is ignored. -/
theorem interfaceTableLoop_stopsAtDone (env : Env) (ifindex : Int)
    (m : NetlinkMessage) (hm : m.header.type = NLMSG_DONE)
    (post : List NetlinkMessage) :
    ∀ (pre : List NetlinkMessage) (im : List Nat),
      interfaceTableLoop env ifindex im (pre ++ m :: post) =
        interfaceTableLoop env ifindex im pre := by
  intro pre
  induction pre with
  | nil => intro im; simp [interfaceTableLoop, hm]
  | cons a pre ih =>
    intro im
    by_cases h1 : a.header.type = NLMSG_DONE
    · simp [interfaceTableLoop, h1]
    · by_cases h2 : a.header.type = RTM_NEWADDR
      · simp only [List.cons_append, interfaceTableLoop, if_neg h1, if_pos h2]
        cases hdc : decodeIfAddrmsg a.data with
        | none => rfl
        | some ifam =>
          by_cases him : ifam.index ∈ im
          · simp [him, ih]
          · by_cases hsel : ifindex = 0 ∨ ifindex = (ifam.index : Int)
            · by_cases hbr : ifindex = (ifam.index : Int)
              · simp [him, hsel, hbr]
              · simp [him, hsel, hbr, ih]
            · simp [him, hsel, ih]
      · simp [interfaceTableLoop, h1, h2, ih]

/-- A done marker stops the address loop: everything after it is ignored. -/
theorem addrTable_stopsAtDone (ift : List Interface) (ifi : Option Interface)
    (m : NetlinkMessage) (hm : m.header.type = NLMSG_DONE)
    (post : List NetlinkMessage) :
    ∀ pre : List NetlinkMessage,
      addrTable ift ifi (pre ++ m :: post) = addrTable ift ifi pre := by
  intro pre
  induction pre with
  | nil => simp [addrTable, hm]
  | cons a pre ih =>
    by_cases h1 : a.header.type = NLMSG_DONE
    · simp [addrTable, h1]
    · by_cases h2 : a.header.type = RTM_NEWADDR
      · simp only [List.cons_append, addrTable, if_neg h1, if_pos h2]
        cases hdc : decodeIfAddrmsg a.data with
        | none => rfl
        | some ifam =>
          cases hcond : addrTableCond ift ifi ifam with
          | crash k => simp [hcond]
          | err e => simp [hcond]
          | ok b =>
            cases b with
            | false => simp [hcond, ih]
            | true =>
              cases hp : parseNetlinkRouteAttr a with
              | err e => simp [hcond, hp]
              | crash k => simp [hcond, hp]
              | ok attrs =>
                cases hn : newAddr ifam attrs with
                | err e => simp [hcond, hp, hn]
                | crash k => simp [hcond, hp, hn]
                | ok o =>
                  cases o with
                  | none => simp [hcond, hp, hn, ih]
                  | some ifa => simp [hcond, hp, hn, ih]
      · simp [addrTable, h1, h2, ih]

/-- With a nonzero target index whose resolution fails, the interface loop
returns the empty table (the record for the target is dropped and the loop
breaks; other indices are never selected). -/
theorem interfaceTableLoop_targetFails (env : Env) (i : Nat) (hi : 0 < i)
    (hfail : linkOfIndex env i = none) :
    ∀ (msgs : List NetlinkMessage) (im : List Nat),
      (∀ m ∈ msgs, m.header.type ≠ NLMSG_DONE) →
      (∀ m ∈ msgs, m.header.type = RTM_NEWADDR → (decodeIfAddrmsg m.data).isSome) →
      interfaceTableLoop env (i : Int) im msgs = Res.ok [] := by
  intro msgs
  induction msgs with
  | nil => intro im _ _; simp [interfaceTableLoop]
  | cons m rest ih =>
    intro im hdone hdec
    have hdm : m.header.type ≠ NLMSG_DONE := hdone m (List.mem_cons_self _ _)
    have hdone' : ∀ m' ∈ rest, m'.header.type ≠ NLMSG_DONE :=
      fun m' hm' => hdone m' (List.mem_cons_of_mem _ hm')
    have hdec' : ∀ m' ∈ rest, m'.header.type = RTM_NEWADDR →
        (decodeIfAddrmsg m'.data).isSome :=
      fun m' hm' => hdec m' (List.mem_cons_of_mem _ hm')
    by_cases hna : m.header.type = RTM_NEWADDR
    · obtain ⟨ifam, hdc⟩ :=
        Option.isSome_iff_exists.mp (hdec m (List.mem_cons_self _ _) hna)
      simp only [interfaceTableLoop, if_neg hdm, if_pos hna, hdc]
      by_cases him : ifam.index ∈ im
      · simpa [him] using ih im hdone' hdec'
      · by_cases heq : ifam.index = i
        · subst heq
          have hsel : (ifam.index : Int) = 0 ∨ (ifam.index : Int) = (ifam.index : Int) :=
            Or.inr rfl
          have hLx : newLink env ifam = none := hfail
          simp [him, hsel, hLx]
        · have hne : ¬ ((i : Int) = (ifam.index : Int)) := by omega
          have hnz : ¬ ((i : Int) = 0) := by omega
          have hsel : ¬ ((i : Int) = 0 ∨ (i : Int) = (ifam.index : Int)) := by
            intro hc; rcases hc with hc | hc
            · exact hnz hc
            · exact hne hc
          rw [if_neg him, if_neg hsel]
          exact ih (ifam.index :: im) hdone' hdec'
    · simpa [interfaceTableLoop, hdm, hna] using ih im hdone' hdec'

/-- When every index resolves, the resolved records map back onto the index
list. -/
theorem filterMap_linkOfIndex_map (env : Env) :
    ∀ l : List Nat, (∀ i ∈ l, (linkOfIndex env i).isSome) →
      (l.filterMap (linkOfIndex env)).map (·.index) = l := by
  intro l
  induction l with
  | nil => intro _; simp
  | cons x xs ih =>
    intro h
    obtain ⟨ifc, hifc⟩ := Option.isSome_iff_exists.mp (h x (List.mem_cons_self _ _))
    have hx := linkOfIndex_index env x ifc hifc
    simp [List.filterMap_cons, hifc, hx,
      ih (fun i hi => h i (List.mem_cons_of_mem _ hi))]

/-- A payload of at least 8 bytes always decodes to an address header. -/
theorem decodeIfAddrmsg_isSome (l : List Nat) (h : 8 ≤ l.length) :
    ∃ ifam, decodeIfAddrmsg l = some ifam := by
  rcases l with _ | ⟨a, _ | ⟨b, _ | ⟨c, _ | ⟨d, _ | ⟨e, _ | ⟨f, _ | ⟨g, _ | ⟨k, rest⟩⟩⟩⟩⟩⟩⟩⟩ <;>
    first
      | exact ⟨_, rfl⟩
      | simp at h

/-- With point-to-point detected, the address loop ignores IFA_ADDRESS
attributes entirely: filtering them out of the list does not change the
result. -/
theorem newAddrLoop_cons (ifam : IfAddrmsg) (p : Bool) (a : NetlinkRouteAttr)
    (rest : List NetlinkRouteAttr) :
    newAddrLoop ifam p (a :: rest) =
      if p ∧ a.attr.type = IFA_ADDRESS then newAddrLoop ifam p rest
      else if ifam.family = AF_INET then newAddrV4 ifam a
      else if ifam.family = AF_INET6 then newAddrV6 ifam a
      else newAddrLoop ifam p rest := rfl

theorem newAddrLoop_filter_addr (ifam : IfAddrmsg) :
    ∀ attrs : List NetlinkRouteAttr,
      newAddrLoop ifam true attrs =
        newAddrLoop ifam true (attrs.filter (fun a => a.attr.type ≠ IFA_ADDRESS)) := by
  intro attrs
  induction attrs with
  | nil => rfl
  | cons a rest ih =>
    by_cases ha : a.attr.type = IFA_ADDRESS
    · have hfil : (a :: rest).filter (fun x => x.attr.type ≠ IFA_ADDRESS)
          = rest.filter (fun x => x.attr.type ≠ IFA_ADDRESS) := by
        simp [List.filter_cons, ha]
      rw [hfil, newAddrLoop_cons, if_pos ⟨rfl, ha⟩]
      exact ih
    · have hfil : (a :: rest).filter (fun x => x.attr.type ≠ IFA_ADDRESS)
          = a :: rest.filter (fun x => x.attr.type ≠ IFA_ADDRESS) := by
        simp [List.filter_cons, ha]
      have hskip : ¬ ((true : Bool) = true ∧ a.attr.type = IFA_ADDRESS) :=
        fun hc => ha hc.2
      rw [hfil, newAddrLoop_cons, newAddrLoop_cons, if_neg hskip]
      conv_rhs => rw [if_neg hskip]
      exact if_congr Iff.rfl rfl (if_congr Iff.rfl rfl ih)

/-- In point-to-point mode with family AF_INET, the loop builds the address
from the first attribute that is not IFA_ADDRESS. -/
theorem newAddrLoop_inet_first (ifam : IfAddrmsg) (hfam : ifam.family = AF_INET) :
    ∀ (attrs : List NetlinkRouteAttr) (a0 : NetlinkRouteAttr),
      (attrs.filter (fun a => a.attr.type ≠ IFA_ADDRESS)).head? = some a0 →
      4 ≤ a0.value.length →
      newAddrLoop ifam true attrs =
        Res.ok (some ⟨IPv4 (a0.value.getD 0 0) (a0.value.getD 1 0) (a0.value.getD 2 0)
          (a0.value.getD 3 0), CIDRMask ifam.prefixlen 32⟩) := by
  intro attrs
  induction attrs with
  | nil => intro a0 h _; simp at h
  | cons a rest ih =>
    intro a0 h hlen
    by_cases ha : a.attr.type = IFA_ADDRESS
    · have h' : (rest.filter (fun x => x.attr.type ≠ IFA_ADDRESS)).head? = some a0 := by
        simpa [List.filter_cons, ha] using h
      rw [newAddrLoop_cons, if_pos ⟨rfl, ha⟩]
      exact ih a0 h' hlen
    · have ha0 : a0 = a := by
        have hfil : (a :: rest).filter (fun x => x.attr.type ≠ IFA_ADDRESS) =
            a :: rest.filter (fun x => x.attr.type ≠ IFA_ADDRESS) := by
          simp [List.filter_cons, ha]
        rw [hfil] at h
        simpa using h.symm
      subst ha0
      rw [newAddrLoop_cons, if_neg (fun hc => ha hc.2), if_pos hfam]
      rcases hv : a0.value with _ | ⟨b0, _ | ⟨b1, _ | ⟨b2, _ | ⟨b3, tl⟩⟩⟩⟩
      · rw [hv] at hlen; simp at hlen
      · rw [hv] at hlen; simp at hlen
      · rw [hv] at hlen; simp at hlen
      · rw [hv] at hlen; simp at hlen
      · simp [newAddrV4, hv]

/-- In point-to-point mode with family AF_INET6, the loop builds the address
from the first attribute that is not IFA_ADDRESS (copying its value into a
fresh 16-byte slice, whatever the value's length). -/
theorem newAddrLoop_inet6_first (ifam : IfAddrmsg) (hfam : ifam.family = AF_INET6) :
    ∀ (attrs : List NetlinkRouteAttr) (a0 : NetlinkRouteAttr),
      (attrs.filter (fun a => a.attr.type ≠ IFA_ADDRESS)).head? = some a0 →
      newAddrLoop ifam true attrs =
        Res.ok (some ⟨goCopy 16 a0.value, CIDRMask ifam.prefixlen 128⟩) := by
  have hfam4 : ifam.family ≠ AF_INET := by rw [hfam]; decide
  intro attrs
  induction attrs with
  | nil => intro a0 h; simp at h
  | cons a rest ih =>
    intro a0 h
    by_cases ha : a.attr.type = IFA_ADDRESS
    · have h' : (rest.filter (fun x => x.attr.type ≠ IFA_ADDRESS)).head? = some a0 := by
        simpa [List.filter_cons, ha] using h
      rw [newAddrLoop_cons, if_pos ⟨rfl, ha⟩]
      exact ih a0 h'
    · have ha0 : a0 = a := by
        have hfil : (a :: rest).filter (fun x => x.attr.type ≠ IFA_ADDRESS) =
            a :: rest.filter (fun x => x.attr.type ≠ IFA_ADDRESS) := by
          simp [List.filter_cons, ha]
        rw [hfil] at h
        simpa using h.symm
      subst ha0
      rw [newAddrLoop_cons, if_neg (fun hc => ha hc.2), if_neg hfam4, if_pos hfam]
      rfl

/-- For families other than AF_INET and AF_INET6 the loop yields no result
and no error. -/
theorem newAddrLoop_otherFamily (ifam : IfAddrmsg) (h1 : ifam.family ≠ AF_INET)
    (h2 : ifam.family ≠ AF_INET6) :
    ∀ (p : Bool) (attrs : List NetlinkRouteAttr), newAddrLoop ifam p attrs = Res.ok none := by
  intro p attrs
  induction attrs with
  | nil => rfl
  | cons a rest ih =>
    rw [newAddrLoop_cons]
    by_cases hs : (p = true) ∧ a.attr.type = IFA_ADDRESS
    · rw [if_pos hs]; exact ih
    · rw [if_neg hs, if_neg h1, if_neg h2]; exact ih

/-- Every successful AF_INET result carries the 32-bit-wide CIDR mask of the
record and an address built via `net.IPv4` from the first 4 value bytes of
some attribute of the list. -/
theorem newAddrLoop_inet_ok (ifam : IfAddrmsg) (hfam : ifam.family = AF_INET) (p : Bool) :
    ∀ (attrs : List NetlinkRouteAttr) (ipn : IPNet),
      newAddrLoop ifam p attrs = Res.ok (some ipn) →
      ipn.mask = CIDRMask ifam.prefixlen 32 ∧
        ∃ a ∈ attrs, ipn.ip = IPv4 (a.value.getD 0 0) (a.value.getD 1 0)
          (a.value.getD 2 0) (a.value.getD 3 0) := by
  intro attrs
  induction attrs with
  | nil => intro ipn h; exact absurd h (by simp [newAddrLoop])
  | cons a rest ih =>
    intro ipn h
    rw [newAddrLoop_cons] at h
    by_cases hs : (p = true) ∧ a.attr.type = IFA_ADDRESS
    · rw [if_pos hs] at h
      obtain ⟨hm, aa, haa, hip⟩ := ih ipn h
      exact ⟨hm, aa, List.mem_cons_of_mem _ haa, hip⟩
    · rw [if_neg hs, if_pos hfam] at h
      rcases hv : a.value with _ | ⟨b0, _ | ⟨b1, _ | ⟨b2, _ | ⟨b3, tl⟩⟩⟩⟩ <;>
        simp only [newAddrV4, hv] at h
      · exact absurd h (by simp)
      · exact absurd h (by simp)
      · exact absurd h (by simp)
      · exact absurd h (by simp)
      · have hipn : ipn = ⟨IPv4 b0 b1 b2 b3, CIDRMask ifam.prefixlen 32⟩ := by
          cases h; rfl
        subst hipn
        exact ⟨rfl, a, List.mem_cons_self _ _, by simp [hv]⟩

/-- Every successful AF_INET6 result carries the 128-bit-wide CIDR mask of
the record and a fresh 16-byte address copied from some attribute's value. -/
theorem newAddrLoop_inet6_ok (ifam : IfAddrmsg) (hfam : ifam.family = AF_INET6) (p : Bool) :
    ∀ (attrs : List NetlinkRouteAttr) (ipn : IPNet),
      newAddrLoop ifam p attrs = Res.ok (some ipn) →
      ipn.mask = CIDRMask ifam.prefixlen 128 ∧ ipn.ip.length = 16 ∧
        ∃ a ∈ attrs, ipn.ip = goCopy 16 a.value := by
  have hfam4 : ifam.family ≠ AF_INET := by rw [hfam]; decide
  intro attrs
  induction attrs with
  | nil => intro ipn h; exact absurd h (by simp [newAddrLoop])
  | cons a rest ih =>
    intro ipn h
    rw [newAddrLoop_cons] at h
    by_cases hs : (p = true) ∧ a.attr.type = IFA_ADDRESS
    · rw [if_pos hs] at h
      obtain ⟨hm, hl, aa, haa, hip⟩ := ih ipn h
      exact ⟨hm, hl, aa, List.mem_cons_of_mem _ haa, hip⟩
    · rw [if_neg hs, if_neg hfam4, if_pos hfam] at h
      have hipn : ipn = ⟨goCopy 16 a.value, CIDRMask ifam.prefixlen 128⟩ := by
        simp only [newAddrV6] at h
        cases h; rfl
      subst hipn
      refine ⟨rfl, ?_, a, List.mem_cons_self _ _, rfl⟩
      simp only [goCopy, List.length_append, List.length_take, List.length_replicate]
      omega

/-- Mapping over an outcome neither introduces nor removes crashes. -/
theorem res_map_eq_crash {α β : Type} (f : α → β) (r : Res α) (k : CrashKind) :
    Res.map f r = Res.crash k ↔ r = Res.crash k := by
  cases r <;> simp [Res.map]

/-- When every attribute value has at least 4 bytes, the address loop never
crashes. -/
theorem newAddrLoop_noCrash (ifam : IfAddrmsg) (p : Bool) :
    ∀ attrs : List NetlinkRouteAttr,
      (∀ a ∈ attrs, 4 ≤ a.value.length) →
      ∀ k, newAddrLoop ifam p attrs ≠ Res.crash k := by
  intro attrs
  induction attrs with
  | nil => intro _ k h; exact absurd h (by simp [newAddrLoop])
  | cons a rest ih =>
    intro hlen k
    have hrest := ih (fun x hx => hlen x (List.mem_cons_of_mem _ hx))
    rw [newAddrLoop_cons]
    by_cases hs : (p = true) ∧ a.attr.type = IFA_ADDRESS
    · rw [if_pos hs]; exact hrest k
    · rw [if_neg hs]
      by_cases hf : ifam.family = AF_INET
      · rw [if_pos hf]
        have h4 := hlen a (List.mem_cons_self _ _)
        rcases hv : a.value with _ | ⟨b0, _ | ⟨b1, _ | ⟨b2, _ | ⟨b3, tl⟩⟩⟩⟩
        · rw [hv] at h4; simp at h4
        · rw [hv] at h4; simp at h4
        · rw [hv] at h4; simp at h4
        · rw [hv] at h4; simp at h4
        · simp [newAddrV4, hv]
      · rw [if_neg hf]
        by_cases hf6 : ifam.family = AF_INET6
        · rw [if_pos hf6]; simp [newAddrV6]
        · rw [if_neg hf6]; exact hrest k

/-- The only crash the address-table guard can produce is the nil
dereference. -/
theorem addrTableCond_crash (ift : List Interface) (ifi : Option Interface)
    (ifam : IfAddrmsg) (k : CrashKind)
    (h : addrTableCond ift ifi ifam = Res.crash k) : k = CrashKind.nilDeref := by
  by_cases hl : ift.length ≠ 0
  · simp [addrTableCond, hl] at h
  · cases ifi with
    | none =>
      simp only [addrTableCond, hl, if_neg] at h
      cases h; rfl
    | some ifc => simp [addrTableCond, hl] at h

/-- Bounded decoding: when every address record has a full 8-byte header, its
attribute parse does not crash, and every parsed attribute value has at
least 4 bytes, the address table never makes an out-of-bounds access (the
only crash left is the nil dereference of the all-interfaces path). -/
theorem addrTable_noOob (ift : List Interface) (ifi : Option Interface) :
    ∀ msgs : List NetlinkMessage,
      (∀ m ∈ msgs, m.header.type = RTM_NEWADDR → 8 ≤ m.data.length) →
      (∀ m ∈ msgs, m.header.type = RTM_NEWADDR → (parseNetlinkRouteAttr m).isCrash = false) →
      (∀ m ∈ msgs, m.header.type = RTM_NEWADDR →
        ∀ a ∈ (parseNetlinkRouteAttr m).okD [], 4 ≤ a.value.length) →
      addrTable ift ifi msgs ≠ Res.crash CrashKind.outOfRange := by
  intro msgs
  induction msgs with
  | nil => intro _ _ _ h; exact absurd h (by simp [addrTable])
  | cons m rest ih =>
    intro h8 hal hv4
    have ih' := ih (fun x hx => h8 x (List.mem_cons_of_mem _ hx))
      (fun x hx => hal x (List.mem_cons_of_mem _ hx))
      (fun x hx => hv4 x (List.mem_cons_of_mem _ hx))
    by_cases h1 : m.header.type = NLMSG_DONE
    · simp [addrTable, h1]
    · by_cases h2 : m.header.type = RTM_NEWADDR
      · obtain ⟨ifam, hdc⟩ :=
          decodeIfAddrmsg_isSome m.data (h8 m (List.mem_cons_self _ _) h2)
        simp only [addrTable, if_neg h1, if_pos h2, hdc]
        cases hcond : addrTableCond ift ifi ifam with
        | crash k =>
          have := addrTableCond_crash ift ifi ifam k hcond
          subst this
          simp
        | err e => simp
        | ok b =>
          cases b with
          | false => simpa using ih'
          | true =>
            cases hp : parseNetlinkRouteAttr m with
            | err e => simp
            | crash k =>
              have := hal m (List.mem_cons_self _ _) h2
              rw [hp] at this
              simp [Res.isCrash] at this
            | ok attrs =>
              have hattrs : ∀ a ∈ attrs, 4 ≤ a.value.length := by
                have := hv4 m (List.mem_cons_self _ _) h2
                rwa [hp] at this
              cases hn : newAddr ifam attrs with
              | err e => simp [hn]
              | crash k =>
                exact absurd hn (newAddrLoop_noCrash ifam _ attrs hattrs k)
              | ok o =>
                cases o with
                | none => simpa [hn] using ih'
                | some ifa =>
                  simp only [hn]
                  intro hcontra
                  exact ih' ((res_map_eq_crash _ _ _).mp hcontra)
      · simpa [addrTable, h1, h2] using ih'

/- Claim theorems. -/

/-- C7: resolving an interface by name with an empty name argument fails with
the invalid-name error (wrapped in the route OpError), and the result is the
same for every environment and override state — in particular when the
netlink source would fail — so the failure is reported before any kernel
request or per-interface query takes place. -/
theorem c7_emptyName_invalid (st : St) (env : Env) :
    InterfaceByName st env "" = Res.err (.opError .invalidInterfaceName) := rfl

/-- C9: listing all unicast addresses crashes with a nil-pointer dereference
when the resolved interface table comes back empty (here: every interface is
dropped because the name sub-query fails) while a well-formed new-address
record is still present in the stream. -/
theorem c9_nilDeref_on_empty_table :
    interfaceTable envC9 0 = Res.ok [] ∧
      InterfaceAddrs st30 envC9 = Res.crash CrashKind.nilDeref := by
  decide

/-- C2: a done marker at any position stops both the interface table and the
address table immediately — the tables over the stream up to the marker and
over the full stream coincide, records after the marker are ignored even if
well-formed, and a done marker alone yields a normal empty result, not an
error. -/
theorem c2_done_terminates (env : Env) (ifindex : Int) (ift : List Interface)
    (ifi : Option Interface) (pre post : List NetlinkMessage) (m : NetlinkMessage)
    (hm : m.header.type = NLMSG_DONE) :
    interfaceTableMsgs env ifindex (pre ++ m :: post) = interfaceTableMsgs env ifindex pre ∧
    addrTable ift ifi (pre ++ m :: post) = addrTable ift ifi pre ∧
    interfaceTableMsgs env ifindex [m] = Res.ok [] ∧
    addrTable ift ifi [m] = Res.ok [] := by
  refine ⟨interfaceTableLoop_stopsAtDone env ifindex m hm post pre [],
    addrTable_stopsAtDone ift ifi m hm post pre, ?_, ?_⟩
  · simp [interfaceTableMsgs, interfaceTableLoop, hm]
  · simp [addrTable, hm]

/-- Witness for C2 at a concrete stream: a done marker between two
well-formed records makes both tables ignore the second record. -/
theorem c2_done_witness :
    msgDone.header.type = NLMSG_DONE ∧
    (interfaceTableMsgs envC1 0 ([mkNA 2 24 1 []] ++ msgDone :: [mkNA 2 24 7 []]) =
        interfaceTableMsgs envC1 0 [mkNA 2 24 1 []] ∧
      addrTable [] (some ifcSample) ([mkNA 2 24 1 []] ++ msgDone :: [mkNA 2 24 7 []]) =
        addrTable [] (some ifcSample) [mkNA 2 24 1 []] ∧
      interfaceTableMsgs envC1 0 [msgDone] = Res.ok [] ∧
      addrTable [] (some ifcSample) [msgDone] = Res.ok []) :=
  ⟨rfl, c2_done_terminates envC1 0 [] (some ifcSample) [mkNA 2 24 1 []]
    [mkNA 2 24 7 []] msgDone rfl⟩

/-- C3 counterexample: a record holding both an IFA_LOCAL (10.0.0.6) and an
IFA_ADDRESS attribute, with an unrelated attribute (IFA_CACHEINFO, bytes
1.2.3.4) listed first, emits one address built from the unrelated
attribute's bytes — not from the local-address attribute. -/
theorem c3_counterexample :
    (∃ a ∈ attrsC3, a.attr.type = IFA_LOCAL) ∧
    (∃ a ∈ attrsC3, a.attr.type = IFA_ADDRESS) ∧
    newAddr ifamC3 attrsC3 = Res.ok (some ⟨IPv4 1 2 3 4, CIDRMask 24 32⟩) ∧
    IPv4 1 2 3 4 ≠ IPv4 10 0 0 6 := by
  decide

/-- C3 (amended): for every new-address record whose attribute list contains
a local-address attribute, every IFA_ADDRESS attribute of the record is
skipped (filtering them out does not change the result, for any family), and
the address is built from the first attribute `a0` that is not IFA_ADDRESS —
which is the local-address attribute whenever no other non-address attribute
precedes it: a family-A record emits exactly one address from the first 4
bytes of `a0`'s value (provided the value has at least those 4 bytes —
a shorter value crashes instead of emitting), and a family-B record emits
exactly one address copying `a0`'s value into a fresh 16-byte address. -/
theorem c3_local_presence (ifam : IfAddrmsg) (attrs : List NetlinkRouteAttr)
    (a0 : NetlinkRouteAttr)
    (hloc : ∃ a ∈ attrs, a.attr.type = IFA_LOCAL)
    (hfirst : (attrs.filter (fun a => a.attr.type ≠ IFA_ADDRESS)).head? = some a0) :
    (newAddr ifam attrs =
      newAddr ifam (attrs.filter (fun a => a.attr.type ≠ IFA_ADDRESS))) ∧
    (ifam.family = AF_INET → 4 ≤ a0.value.length →
      newAddr ifam attrs =
        Res.ok (some ⟨IPv4 (a0.value.getD 0 0) (a0.value.getD 1 0) (a0.value.getD 2 0)
          (a0.value.getD 3 0), CIDRMask ifam.prefixlen 32⟩)) ∧
    (ifam.family = AF_INET6 →
      newAddr ifam attrs =
        Res.ok (some ⟨goCopy 16 a0.value, CIDRMask ifam.prefixlen 128⟩)) := by
  have hp2p : attrs.any (fun a => a.attr.type == IFA_LOCAL) = true := by
    obtain ⟨a, ha, hty⟩ := hloc
    exact List.any_eq_true.mpr ⟨a, ha, by simp [hty]⟩
  have hp2p2 : (attrs.filter (fun a => a.attr.type ≠ IFA_ADDRESS)).any
      (fun a => a.attr.type == IFA_LOCAL) = true := by
    obtain ⟨a, ha, hty⟩ := hloc
    refine List.any_eq_true.mpr ⟨a, ?_, by simp [hty]⟩
    refine List.mem_filter.mpr ⟨ha, ?_⟩
    simp [hty, IFA_LOCAL, IFA_ADDRESS]
  refine ⟨?_, ?_, ?_⟩
  · unfold newAddr
    rw [hp2p, hp2p2]
    exact newAddrLoop_filter_addr ifam attrs
  · intro hfam hlen
    unfold newAddr
    rw [hp2p]
    exact newAddrLoop_inet_first ifam hfam attrs a0 hfirst hlen
  · intro hfam
    unfold newAddr
    rw [hp2p]
    exact newAddrLoop_inet6_first ifam hfam attrs a0 hfirst

/-- Witness for the amended C3 on a pure local/peer pair: the peer attribute
is skipped and the emitted address is the local one, for a family-A record
(10.0.0.6/24) and for a family-B record (the copied 16-byte form, /64). -/
theorem c3_local_witness :
    (∃ a ∈ attrsLocalPeer, a.attr.type = IFA_LOCAL) ∧
    (attrsLocalPeer.filter (fun a => a.attr.type ≠ IFA_ADDRESS)).head? =
      some ⟨⟨8, IFA_LOCAL⟩, [10, 0, 0, 6]⟩ ∧
    ifamC3.family = AF_INET ∧ 4 ≤ ([10, 0, 0, 6] : List Nat).length ∧
    (newAddr ifamC3 attrsLocalPeer =
      newAddr ifamC3 (attrsLocalPeer.filter (fun a => a.attr.type ≠ IFA_ADDRESS))) ∧
    newAddr ifamC3 attrsLocalPeer = Res.ok (some ⟨IPv4 10 0 0 6, CIDRMask 24 32⟩) ∧
    newAddr ⟨10, 64, 0, 0, 1⟩ attrsLocalPeer =
      Res.ok (some ⟨goCopy 16 [10, 0, 0, 6], CIDRMask 64 128⟩) := by
  refine ⟨by decide, by decide, by decide, by decide, ?_, ?_, ?_⟩
  · exact (c3_local_presence ifamC3 attrsLocalPeer ⟨⟨8, IFA_LOCAL⟩, [10, 0, 0, 6]⟩
      (by decide) (by decide)).1
  · have h := (c3_local_presence ifamC3 attrsLocalPeer ⟨⟨8, IFA_LOCAL⟩, [10, 0, 0, 6]⟩
      (by decide) (by decide)).2.1 rfl (by decide)
    simpa using h
  · have h := (c3_local_presence ⟨10, 64, 0, 0, 1⟩ attrsLocalPeer
      ⟨⟨8, IFA_LOCAL⟩, [10, 0, 0, 6]⟩ (by decide) (by decide)).2.2 rfl
    simpa using h

/-- C4: `newAddr` dispatches on the record's family — any family other than
AF_INET and AF_INET6 yields no result and no error; every emitted AF_INET
address is built by `net.IPv4` from the first 4 value bytes of one of the
record's attributes with a CIDR mask over a 32-bit width; every emitted
AF_INET6 address is a fresh 16-byte slice copied from an attribute value
(not aliasing it) with a CIDR mask over a 128-bit width. -/
theorem c4_family_dispatch (ifam : IfAddrmsg) (attrs : List NetlinkRouteAttr) :
    (ifam.family ≠ AF_INET → ifam.family ≠ AF_INET6 → newAddr ifam attrs = Res.ok none) ∧
    (∀ ipn : IPNet, newAddr ifam attrs = Res.ok (some ipn) → ifam.family = AF_INET →
      ipn.mask = CIDRMask ifam.prefixlen 32 ∧
        ∃ a ∈ attrs, ipn.ip = IPv4 (a.value.getD 0 0) (a.value.getD 1 0)
          (a.value.getD 2 0) (a.value.getD 3 0)) ∧
    (∀ ipn : IPNet, newAddr ifam attrs = Res.ok (some ipn) → ifam.family = AF_INET6 →
      ipn.mask = CIDRMask ifam.prefixlen 128 ∧ ipn.ip.length = 16 ∧
        ∃ a ∈ attrs, ipn.ip = goCopy 16 a.value) := by
  refine ⟨?_, ?_, ?_⟩
  · intro h1 h2; exact newAddrLoop_otherFamily ifam h1 h2 _ attrs
  · intro ipn h hfam; exact newAddrLoop_inet_ok ifam hfam _ attrs ipn h
  · intro ipn h hfam; exact newAddrLoop_inet6_ok ifam hfam _ attrs ipn h

/-- Witness for C4, instantiating all three family cases on concrete
records. -/
theorem c4_family_witness :
    newAddr ⟨5, 24, 0, 0, 1⟩ attrsC3 = Res.ok none ∧
    ((⟨IPv4 1 2 3 4, CIDRMask 24 32⟩ : IPNet).mask = CIDRMask ifamC3.prefixlen 32 ∧
      ∃ a ∈ attrsC3, (⟨IPv4 1 2 3 4, CIDRMask 24 32⟩ : IPNet).ip =
        IPv4 (a.value.getD 0 0) (a.value.getD 1 0) (a.value.getD 2 0) (a.value.getD 3 0)) ∧
    ((⟨goCopy 16 [1, 2, 3, 4], CIDRMask 64 128⟩ : IPNet).mask = CIDRMask 64 128 ∧
      (⟨goCopy 16 [1, 2, 3, 4], CIDRMask 64 128⟩ : IPNet).ip.length = 16 ∧
      ∃ a ∈ attrsC3, (⟨goCopy 16 [1, 2, 3, 4], CIDRMask 64 128⟩ : IPNet).ip = goCopy 16 a.value) := by
  refine ⟨?_, ?_, ?_⟩
  · exact (c4_family_dispatch ⟨5, 24, 0, 0, 1⟩ attrsC3).1 (by decide) (by decide)
  · exact (c4_family_dispatch ifamC3 attrsC3).2.1 ⟨IPv4 1 2 3 4, CIDRMask 24 32⟩ (by decide) rfl
  · exact (c4_family_dispatch ⟨10, 64, 0, 0, 1⟩ attrsC3).2.2
      ⟨goCopy 16 [1, 2, 3, 4], CIDRMask 64 128⟩ (by decide) rfl

/-- C5 counterexample: below the restriction threshold (auto-detected level
3), the conventional by-name lookup would succeed, yet `InterfaceByName`
still consults the netlink source and returns its failure — the by-name
entry point performs no version-detection check. -/
theorem c5_counterexample :
    androidApiLevel stAuto envC5 < android11ApiLevel ∧
    envC5.netInterfaceByName "eth0" = Except.ok ifcSample ∧
    InterfaceByName stAuto envC5 "eth0" = Res.err (.opError (.syscallError "netlinkrib")) ∧
    InterfaceByName stAuto envC5 "eth0" ≠ liftExternal (envC5.netInterfaceByName "eth0") :=
  ⟨by decide, rfl, rfl, by decide⟩

/-- C5 (amended): four of the five query entry points — list interfaces,
list all addresses, resolve by index, list addresses of an interface —
perform the version check per call and use the conventional lookup whenever
the detected level is below the threshold; resolve-by-name never checks: its
result is independent of the override state and, below the threshold, it
still goes to the netlink source (a source failure surfaces instead of the
conventional result). -/
theorem c5_gate_per_call (st : St) (env : Env)
    (h : androidApiLevel st env < android11ApiLevel) :
    Interfaces st env = liftExternal env.netInterfaces ∧
    InterfaceAddrs st env = liftExternal env.netInterfaceAddrs ∧
    (∀ index : Int, InterfaceByIndex st env index =
      liftExternal (env.netInterfaceByIndex index)) ∧
    (∀ ifc : Interface, InterfaceAddrsByInterface st env (some ifc) =
      liftExternal (env.netIfiAddrs ifc)) ∧
    (∀ name : String, ∀ st2 : St, InterfaceByName st env name = InterfaceByName st2 env name) ∧
    (env.source = .ribError → ∀ name : String, name ≠ "" →
      InterfaceByName st env name = Res.err (.opError (.syscallError "netlinkrib"))) := by
  refine ⟨?_, ?_, ?_, ?_, ?_, ?_⟩
  · simp [Interfaces, h]
  · simp [InterfaceAddrs, h]
  · intro index; simp [InterfaceByIndex, h]
  · intro ifc; simp [InterfaceAddrsByInterface, h]
  · intro name st2; rfl
  · intro hsrc name hname
    simp [InterfaceByName, hname, interfaceTable, hsrc]

/-- Witness for the amended C5 below the threshold. -/
theorem c5_gate_witness :
    androidApiLevel stAuto envC5 < android11ApiLevel ∧
    Interfaces stAuto envC5 = liftExternal envC5.netInterfaces ∧
    InterfaceAddrs stAuto envC5 = liftExternal envC5.netInterfaceAddrs ∧
    InterfaceByIndex stAuto envC5 1 = liftExternal (envC5.netInterfaceByIndex 1) ∧
    InterfaceAddrsByInterface stAuto envC5 (some ifcSample) =
      liftExternal (envC5.netIfiAddrs ifcSample) := by
  refine ⟨by decide, ?_, ?_, ?_, ?_⟩
  · exact (c5_gate_per_call stAuto envC5 (by decide)).1
  · exact (c5_gate_per_call stAuto envC5 (by decide)).2.1
  · exact (c5_gate_per_call stAuto envC5 (by decide)).2.2.1 1
  · exact (c5_gate_per_call stAuto envC5 (by decide)).2.2.2.1 ifcSample

/-- C8 counterexample: after setting the version override to 5 (bucket
1-10), the detected level is below the threshold, the conventional by-name
lookup would succeed — yet resolve-by-name still takes the netlink path, so
not all subsequent calls take the conventional path. -/
theorem c8_counterexample :
    SetAndroidVersion 5 = 0 ∧
    androidApiLevel ⟨SetAndroidVersion 5⟩ envC8 < android11ApiLevel ∧
    envC8.netInterfaceByName "wlan0" = Except.ok ifcEth ∧
    InterfaceByName ⟨SetAndroidVersion 5⟩ envC8 "wlan0" =
      Res.err (.opError (.syscallError "netlinkrib")) ∧
    InterfaceByName ⟨SetAndroidVersion 5⟩ envC8 "wlan0" ≠
      liftExternal (envC8.netInterfaceByName "wlan0") :=
  ⟨by decide, by decide, rfl, rfl, by decide⟩

/-- C8 (amended): the override buckets against a single threshold — 0
restores auto-detection (the stored level is the initial one and detection
falls back to the device level); any version from 11 up pins the level to 30
so every version-gated entry point takes the netlink path; any version 1-10
pins the level to 0 so every version-gated entry point takes the
conventional path — while resolve-by-name always takes the netlink path
regardless of the override. -/
theorem c8_version_override (env : Env) (v : Nat) :
    (SetAndroidVersion 0 = initialCustomAndroidApiLevel ∧
      androidApiLevel ⟨SetAndroidVersion 0⟩ env = env.deviceApiLevel) ∧
    (11 ≤ v →
      SetAndroidVersion v = android11ApiLevel ∧
      ¬ androidApiLevel ⟨SetAndroidVersion v⟩ env < android11ApiLevel ∧
      Interfaces ⟨SetAndroidVersion v⟩ env = interfacesNetlink env ∧
      InterfaceAddrs ⟨SetAndroidVersion v⟩ env = interfaceAddrsNetlink env ∧
      (∀ index : Int, InterfaceByIndex ⟨SetAndroidVersion v⟩ env index =
        interfaceByIndexNetlink env index) ∧
      (∀ ifc : Interface, InterfaceAddrsByInterface ⟨SetAndroidVersion v⟩ env (some ifc) =
        interfaceAddrsByInterfaceNetlink env ifc)) ∧
    (1 ≤ v → v ≤ 10 →
      SetAndroidVersion v = 0 ∧
      androidApiLevel ⟨SetAndroidVersion v⟩ env < android11ApiLevel ∧
      Interfaces ⟨SetAndroidVersion v⟩ env = liftExternal env.netInterfaces ∧
      InterfaceAddrs ⟨SetAndroidVersion v⟩ env = liftExternal env.netInterfaceAddrs ∧
      (∀ index : Int, InterfaceByIndex ⟨SetAndroidVersion v⟩ env index =
        liftExternal (env.netInterfaceByIndex index)) ∧
      (∀ ifc : Interface, InterfaceAddrsByInterface ⟨SetAndroidVersion v⟩ env (some ifc) =
        liftExternal (env.netIfiAddrs ifc)) ∧
      (env.source = .ribError → ∀ name : String, name ≠ "" →
        InterfaceByName ⟨SetAndroidVersion v⟩ env name =
          Res.err (.opError (.syscallError "netlinkrib")))) := by
  refine ⟨⟨by decide, by simp [androidApiLevel, SetAndroidVersion, initialCustomAndroidApiLevel]⟩,
    ?_, ?_⟩
  · intro hv
    have hv0 : ¬ v = 0 := by omega
    have hset : SetAndroidVersion v = android11ApiLevel := by
      simp [SetAndroidVersion, hv0, hv]
    have hlev : androidApiLevel ⟨SetAndroidVersion v⟩ env = 30 := by
      simp [androidApiLevel, hset, android11ApiLevel]
    refine ⟨hset, by simp [hlev, android11ApiLevel], ?_, ?_, ?_, ?_⟩
    · simp [Interfaces, hlev, android11ApiLevel]
    · simp [InterfaceAddrs, hlev, android11ApiLevel]
    · intro index; simp [InterfaceByIndex, hlev, android11ApiLevel]
    · intro ifc; simp [InterfaceAddrsByInterface, hlev, android11ApiLevel]
  · intro hv1 hv10
    have hv0 : ¬ v = 0 := by omega
    have hv11 : ¬ 11 ≤ v := by omega
    have hset : SetAndroidVersion v = 0 := by
      simp [SetAndroidVersion, hv0, hv11]
    have hlev : androidApiLevel ⟨SetAndroidVersion v⟩ env = 0 := by
      simp [androidApiLevel, hset]
    refine ⟨hset, by simp [hlev, android11ApiLevel], ?_, ?_, ?_, ?_, ?_⟩
    · simp [Interfaces, hlev, android11ApiLevel]
    · simp [InterfaceAddrs, hlev, android11ApiLevel]
    · intro index; simp [InterfaceByIndex, hlev, android11ApiLevel]
    · intro ifc; simp [InterfaceAddrsByInterface, hlev, android11ApiLevel]
    · intro hsrc name hname
      simp [InterfaceByName, hname, interfaceTable, hsrc]

/-- Witness for the amended C8 at overrides 11, 5 and 0. -/
theorem c8_version_witness :
    (¬ androidApiLevel ⟨SetAndroidVersion 11⟩ envC8 < android11ApiLevel ∧
      Interfaces ⟨SetAndroidVersion 11⟩ envC8 = interfacesNetlink envC8) ∧
    (androidApiLevel ⟨SetAndroidVersion 5⟩ envC8 < android11ApiLevel ∧
      Interfaces ⟨SetAndroidVersion 5⟩ envC8 = liftExternal envC8.netInterfaces) ∧
    androidApiLevel ⟨SetAndroidVersion 0⟩ envC8 = envC8.deviceApiLevel := by
  refine ⟨⟨?_, ?_⟩, ⟨?_, ?_⟩, ?_⟩
  · exact ((c8_version_override envC8 11).2.1 (by decide)).2.1
  · exact ((c8_version_override envC8 11).2.1 (by decide)).2.2.1
  · exact ((c8_version_override envC8 5).2.2 (by decide) (by decide)).2.1
  · exact ((c8_version_override envC8 5).2.2 (by decide) (by decide)).2.2.1
  · exact (c8_version_override envC8 0).1.2

/-- C10 counterexample: a new-address message with a 4-byte payload makes the
address-header reinterpretation read out of bounds, and a family-A record
whose attribute value is empty makes the 4-byte value read go out of
bounds. -/
theorem c10_counterexample :
    addrTable [] (some ifcSample) [msgShort] = Res.crash CrashKind.outOfRange ∧
    addrTable [ifcSample] none [msgShortAttr] = Res.crash CrashKind.outOfRange := by
  decide

/-- C10 (amended): address decoding stays in bounds provided every
new-address payload carries the full 8-byte header, its attribute list
parses without a bounds violation, and every parsed attribute value has at
least the 4 bytes the family-A path reads; under those conditions the
address table never makes an out-of-bounds access. -/
theorem c10_bounded_decoding (ift : List Interface) (ifi : Option Interface)
    (msgs : List NetlinkMessage)
    (h8 : ∀ m ∈ msgs, m.header.type = RTM_NEWADDR → 8 ≤ m.data.length)
    (hal : ∀ m ∈ msgs, m.header.type = RTM_NEWADDR →
      (parseNetlinkRouteAttr m).isCrash = false)
    (hv4 : ∀ m ∈ msgs, m.header.type = RTM_NEWADDR →
      ∀ a ∈ (parseNetlinkRouteAttr m).okD [], 4 ≤ a.value.length) :
    addrTable ift ifi msgs ≠ Res.crash CrashKind.outOfRange :=
  addrTable_noOob ift ifi msgs h8 hal hv4

/-- Witness for the amended C10 on a well-formed stream. -/
theorem c10_bounded_witness :
    (∀ m ∈ msgsC10, m.header.type = RTM_NEWADDR → 8 ≤ m.data.length) ∧
    (∀ m ∈ msgsC10, m.header.type = RTM_NEWADDR →
      (parseNetlinkRouteAttr m).isCrash = false) ∧
    (∀ m ∈ msgsC10, m.header.type = RTM_NEWADDR →
      ∀ a ∈ (parseNetlinkRouteAttr m).okD [], 4 ≤ a.value.length) ∧
    addrTable [ifcSample] none msgsC10 ≠ Res.crash CrashKind.outOfRange := by
  refine ⟨by decide, by decide, by decide, ?_⟩
  exact c10_bounded_decoding [ifcSample] none msgsC10 (by decide) (by decide) (by decide)

/-- C1: on a stream with no done marker before the end whose address records
decode to nonzero indices, enumerating with target index 0 — assuming every
per-interface sub-query succeeds — yields exactly one record per distinct
index, in first-seen order, each carrying the sub-query snapshot for its
index (`newLink` reads only the index, so this is the first occurrence's
snapshot). -/
theorem c1_first_seen_enumeration (env : Env) (msgs : List NetlinkMessage)
    (hsrc : env.source = .msgs msgs)
    (hdone : ∀ m ∈ msgs.dropLast, m.header.type ≠ NLMSG_DONE)
    (hdec : ∀ m ∈ msgs, m.header.type = RTM_NEWADDR →
      ∃ ifam, decodeIfAddrmsg m.data = some ifam ∧ ifam.index ≠ 0)
    (hsub : ∀ i ∈ dedupFirst (newaddrIndices msgs), (linkOfIndex env i).isSome) :
    ∃ ift : List Interface,
      interfaceTable env 0 = Res.ok ift ∧
      ift.map (·.index) = dedupFirst (newaddrIndices msgs) ∧
      ift.length = (dedupFirst (newaddrIndices msgs)).length ∧
      (ift.map (·.index)).Nodup ∧
      ∀ ifc ∈ ift, linkOfIndex env ifc.index = some ifc := by
  have heq : interfaceTableMsgs env 0 msgs =
      Res.ok ((dedupFirst (newaddrIndices msgs)).filterMap (linkOfIndex env)) := by
    rcases List.eq_nil_or_concat msgs with rfl | ⟨L, b, rfl⟩
    · rfl
    · simp only [List.concat_eq_append] at hdone hdec ⊢
      have hL : (L ++ [b]).dropLast = L := by simp
      rw [hL] at hdone
      by_cases hb : b.header.type = NLMSG_DONE
      · have hbna : b.header.type ≠ RTM_NEWADDR := by rw [hb]; decide
        have hni : newaddrIndices (L ++ [b]) = newaddrIndices L := by
          simp [newaddrIndices, List.filterMap_append, hbna]
        rw [hni]
        have hstop : interfaceTableMsgs env 0 (L ++ [b]) = interfaceTableMsgs env 0 L :=
          interfaceTableLoop_stopsAtDone env 0 b hb [] L []
        rw [hstop]
        exact interfaceTableLoop_char env L []
          hdone (fun m hm => hdec m (by simp [hm]))
      · have hall : ∀ m ∈ L ++ [b], m.header.type ≠ NLMSG_DONE := by
          intro m hm
          rcases List.mem_append.mp hm with h | h
          · exact hdone m h
          · rw [List.mem_singleton.mp h]
            exact hb
        exact interfaceTableLoop_char env (L ++ [b]) [] hall hdec
  have htab : interfaceTable env 0 =
      Res.ok ((dedupFirst (newaddrIndices msgs)).filterMap (linkOfIndex env)) := by
    simp only [interfaceTable, hsrc]
    exact heq
  have hmap := filterMap_linkOfIndex_map env (dedupFirst (newaddrIndices msgs)) hsub
  refine ⟨(dedupFirst (newaddrIndices msgs)).filterMap (linkOfIndex env),
    htab, hmap, ?_, ?_, ?_⟩
  · have := congrArg List.length hmap
    simpa using this
  · rw [hmap]
    exact (dedupFirstAux_nodup (newaddrIndices msgs) []).2
  · intro ifc hifc
    obtain ⟨i, hiD, hlink⟩ := List.mem_filterMap.mp hifc
    rw [linkOfIndex_index env i ifc hlink]
    exact hlink

/-- Witness for C1: a stream with indices 1, 2, 1 and a trailing done marker
yields exactly the two records for indices 1 and 2, in that order. -/
theorem c1_first_seen_witness :
    (∀ m ∈ msgsC1.dropLast, m.header.type ≠ NLMSG_DONE) ∧
    (∀ i ∈ dedupFirst (newaddrIndices msgsC1), (linkOfIndex envC1 i).isSome) ∧
    ∃ ift : List Interface,
      interfaceTable envC1 0 = Res.ok ift ∧
      ift.map (·.index) = dedupFirst (newaddrIndices msgsC1) ∧
      ift.length = (dedupFirst (newaddrIndices msgsC1)).length ∧
      (ift.map (·.index)).Nodup ∧
      ∀ ifc ∈ ift, linkOfIndex envC1 ifc.index = some ifc := by
  refine ⟨by decide, by decide, ?_⟩
  refine c1_first_seen_enumeration envC1 msgsC1 rfl (by decide) ?_ (by decide)
  intro m hm hna
  simp only [msgsC1, List.mem_cons, List.not_mem_nil, or_false] at hm
  rcases hm with rfl | rfl | rfl | rfl
  · exact ⟨_, rfl, by decide⟩
  · exact ⟨_, rfl, by decide⟩
  · exact ⟨_, rfl, by decide⟩
  · exact absurd hna (by decide)

/-- C6: a failing per-interface sub-query is swallowed during bulk
enumeration — the affected interface is omitted from the table and no error
is returned — while resolving a single interface by index (or, when every
record fails to resolve, by name) surfaces the failure to the caller as a
no-such-interface route error. -/
theorem c6_subquery_failure (st : St) (env : Env) (msgs : List NetlinkMessage) (i : Nat)
    (hsrc : env.source = .msgs msgs)
    (hgate : ¬ androidApiLevel st env < android11ApiLevel)
    (hdone : ∀ m ∈ msgs, m.header.type ≠ NLMSG_DONE)
    (hdec : ∀ m ∈ msgs, m.header.type = RTM_NEWADDR →
      ∃ ifam, decodeIfAddrmsg m.data = some ifam ∧ ifam.index ≠ 0) :
    (interfaceTable env 0 =
      Res.ok ((dedupFirst (newaddrIndices msgs)).filterMap (linkOfIndex env))) ∧
    (∀ j, linkOfIndex env j = none →
      ∀ ifc ∈ (dedupFirst (newaddrIndices msgs)).filterMap (linkOfIndex env),
        ifc.index ≠ j) ∧
    (0 < i → linkOfIndex env i = none →
      InterfaceByIndex st env (i : Int) = Res.err (.opError .noSuchInterface)) ∧
    ((∀ j ∈ dedupFirst (newaddrIndices msgs), linkOfIndex env j = none) →
      ∀ name : String, name ≠ "" →
        InterfaceByName st env name = Res.err (.opError .noSuchInterface)) := by
  have hchar := interfaceTableLoop_char env msgs [] hdone hdec
  refine ⟨?_, ?_, ?_, ?_⟩
  · simp only [interfaceTable, hsrc]
    exact hchar
  · intro j hj ifc hifc hcontra
    obtain ⟨i', hi', hlink⟩ := List.mem_filterMap.mp hifc
    have hI : ifc.index = i' := linkOfIndex_index env i' ifc hlink
    rw [hI] at hcontra
    rw [hcontra, hj] at hlink
    cases hlink
  · intro hi hfail
    have hgI : ¬ ((i : Int) ≤ 0) := by omega
    have hdec' : ∀ m ∈ msgs, m.header.type = RTM_NEWADDR →
        (decodeIfAddrmsg m.data).isSome := by
      intro m hm hna
      obtain ⟨ifam, hd, _⟩ := hdec m hm hna
      rw [hd]; rfl
    have htab : interfaceTable env (i : Int) = Res.ok [] := by
      simp only [interfaceTable, hsrc]
      exact interfaceTableLoop_targetFails env i hi hfail msgs [] hdone hdec'
    simp [InterfaceByIndex, hgate, interfaceByIndexNetlink, hgI, htab, interfaceByIndex]
  · intro hall name hname
    have hnil : List.filterMap (linkOfIndex env)
        (dedupFirstAux [] (newaddrIndices msgs)) = [] :=
      List.filterMap_eq_nil_iff.mpr hall
    have htab : interfaceTable env 0 = Res.ok [] := by
      simp only [interfaceTable, hsrc]
      show interfaceTableLoop env 0 [] msgs = Res.ok []
      rw [hchar, hnil]
    simp [InterfaceByName, hname, htab]

/-- Witness for C6: with a failing name sub-query and one record for index
1, bulk enumeration returns the empty table with no error while by-index and
by-name resolution fail with the no-such-interface route error. -/
theorem c6_subquery_witness :
    (¬ androidApiLevel st30 envC9 < android11ApiLevel) ∧
    linkOfIndex envC9 1 = none ∧
    interfaceTable envC9 0 = Res.ok [] ∧
    InterfaceByIndex st30 envC9 ((1 : Nat) : Int) =
      Res.err (.opError .noSuchInterface) ∧
    InterfaceByName st30 envC9 "lo" = Res.err (.opError .noSuchInterface) := by
  have hdec : ∀ m ∈ [mkNA 2 24 1 []], m.header.type = RTM_NEWADDR →
      ∃ ifam, decodeIfAddrmsg m.data = some ifam ∧ ifam.index ≠ 0 := by
    intro m hm hna
    simp only [List.mem_cons, List.not_mem_nil, or_false] at hm
    rw [hm]
    exact ⟨_, rfl, by decide⟩
  have h := c6_subquery_failure st30 envC9 [mkNA 2 24 1 []] 1 rfl (by decide) (by decide) hdec
  refine ⟨by decide, by decide, ?_, ?_, ?_⟩
  · have h1 := h.1
    simpa using h1
  · exact h.2.2.1 (by decide) (by decide)
  · exact h.2.2.2 (by decide) "lo" (by decide)
